import Mathlib

/-!
Shallow embedding of the identity and data-governance core of the
`dudley-life-optimizer` repository, covering `src/security/auth.py`
(JWTManager, AuthenticationManager) and `src/security/data_protection.py`
(DataProtectionManager), together with theorems settling the frozen claims.

Modelling conventions:
* Time is a `Nat`.  For the JWT layer it counts seconds (the source uses
  `timedelta(hours=1)` / `timedelta(days=30)`); for the retention layer it
  counts days (the source uses `timedelta(days=...)`).
* The external bcrypt library is modelled by an injective tagging function:
  `verify_password p h` holds iff `h` is the hash of `p`, matching the bcrypt
  contract: checkpw of a password against its own hash is true, and distinct
  passwords do not verify.
* Fernet encryption is modelled by a prefix tag with `decrypt (encrypt s) = s`.
* pyotp TOTP verification is modelled as matching the unique currently valid
  code for a secret (the clock window is collapsed since no claim depends on
  clock skew).
* A JWT string is modelled by the constructor `Token.signed c` (a token signed
  with the service secret, carrying claims `c`) or `Token.invalidTok` (wrong
  signature or malformed), which is exactly the distinction
  `jwt.decode` observes.
* The Supabase store is modelled explicitly: the `users` table as a
  `List UserRec`, the data tables as a function from table name to row list,
  with append-only side tables for audit logs and archives.
-/

namespace Dudley

/-! ## JWT layer (`src/security/auth.py`, class JWTManager) -/

/-- Constant `SecurityConfig.JWT_ACCESS_TOKEN_EXPIRES = timedelta(hours=1)`, in seconds. -/
def JWT_ACCESS_TOKEN_EXPIRES : Nat := 3600

/-- Constant `SecurityConfig.JWT_REFRESH_TOKEN_EXPIRES = timedelta(days=30)`, in seconds. -/
def JWT_REFRESH_TOKEN_EXPIRES : Nat := 30 * 86400

/-- Decoded JWT payload.  Setting `roles = none` models a payload dict with
no roles key (the refresh payload built by `generate_tokens` has none), so
that the source expression `payload.get` of roles with default `[]` is
`roles.getD []`.  Field `typ` is the type claim. -/
structure JwtClaims where
  user_id : String
  email : String
  roles : Option (List String)
  typ : String
  iat : Nat
  exp : Nat
deriving DecidableEq

/-- A token string as seen by `jwt.decode`: either well signed with the
service secret (carrying its claims) or invalid (bad signature / malformed). -/
inductive Token where
  | signed (claims : JwtClaims)
  | invalidTok
deriving DecidableEq

/-- Result dict of the source method `JWTManager.generate_tokens`. -/
structure TokenPair where
  access_token : Token
  refresh_token : Token
  expires_in : Nat
deriving DecidableEq

/-- Source method `JWTManager.generate_tokens(user_id, email, roles)` at time
`now`.  The access payload carries a roles claim; the refresh payload does
not (the source dict has only `user_id`, `email`, `type`, `iat`, `exp`). -/
def generate_tokens (user_id email : String) (roles : List String) (now : Nat) :
    TokenPair :=
  { access_token := .signed
      { user_id := user_id, email := email, roles := some roles,
        typ := "access", iat := now, exp := now + JWT_ACCESS_TOKEN_EXPIRES }
    refresh_token := .signed
      { user_id := user_id, email := email, roles := none,
        typ := "refresh", iat := now, exp := now + JWT_REFRESH_TOKEN_EXPIRES }
    expires_in := JWT_ACCESS_TOKEN_EXPIRES }

/-- Source method `JWTManager.verify_token` at time `now`: a badly signed or
malformed token and an expired one both collapse to `none`; otherwise the
payload is returned. -/
def verify_token (t : Token) (now : Nat) : Option JwtClaims :=
  match t with
  | .signed c => if c.exp < now then none else some c
  | .invalidTok => none

/-- Source method `JWTManager.refresh_access_token` at time `now`.  Rejects
anything whose verified payload lacks the type claim refresh; otherwise it
issues a fresh access token whose roles are `payload.get` of roles with
default `[]`, that is `payload.roles.getD []`. -/
def refresh_access_token (refresh_token : Token) (now : Nat) : Option Token :=
  match verify_token refresh_token now with
  | none => none
  | some payload =>
    if payload.typ ≠ "refresh" then none
    else some (.signed
      { user_id := payload.user_id, email := payload.email,
        roles := some (payload.roles.getD []),
        typ := "access", iat := now, exp := now + JWT_ACCESS_TOKEN_EXPIRES })

/-! ## Crypto helpers (`DataEncryption`, `MFAManager.verify_totp`) -/

/-- Function bcrypt `hashpw`, modelled as an injective tag (see file header). -/
def hash_password (password : String) : String := "bcrypt$" ++ password

/-- Function bcrypt `checkpw(password, hashed)`: true iff `hashed` hashes `password`. -/
def verify_password (password hashed : String) : Bool :=
  hashed == hash_password password

/-- Function Fernet `encrypt`, modelled as a reversible tag. -/
def encrypt (data : String) : String := "enc$" ++ data

/-- Function Fernet `decrypt`; inverse of `encrypt` on its range. -/
def decrypt (encrypted_data : String) : String := encrypted_data.drop 4

/-- The unique currently valid TOTP code for a secret (pyotp, window
collapsed since no claim depends on clock skew). -/
def totp_code (secret : String) : String := "totp$" ++ secret

/-- Source method `MFAManager.verify_totp(secret, token)`. -/
def verify_totp (secret token : String) : Bool := token == totp_code secret

/-! ## AuthenticationManager (`src/security/auth.py`) -/

/-- A row of the `users` table, with the fields `register_user` creates and
`authenticate_user` reads. -/
structure UserRec where
  id : String
  email : String
  password_hash : String
  full_name : String
  mfa_secret : String
  mfa_enabled : Bool
  roles : List String
  failed_login_attempts : Nat
  account_locked : Bool
  last_login : Option Nat
deriving DecidableEq

/-- The public part of a user returned on successful login. -/
structure PublicUser where
  id : String
  email : String
  full_name : String
  roles : List String
deriving DecidableEq

/-- The response dict of `authenticate_user`: `success`, an optional `error`
string, the optional `requires_mfa` flag (absent ↦ `false`), and on success
the user info and token pair. -/
structure AuthResponse where
  success : Bool
  error : Option String
  requires_mfa : Bool
  user : Option PublicUser
  tokens : Option TokenPair
deriving DecidableEq

/-- Response with success false and error message Invalid credentials,
returned both when no user matches the email and when the password is
wrong. -/
def invalidCredentials : AuthResponse :=
  { success := false, error := some "Invalid credentials",
    requires_mfa := false, user := none, tokens := none }

/-- Response with success false and the locked-account error message. -/
def accountLocked : AuthResponse :=
  { success := false,
    error := some "Account is locked due to multiple failed login attempts",
    requires_mfa := false, user := none, tokens := none }

/-- Response with success false, error message MFA token required, and the
requires_mfa flag set. -/
def mfaRequired : AuthResponse :=
  { success := false, error := some "MFA token required",
    requires_mfa := true, user := none, tokens := none }

/-- Response with success false and error message Invalid MFA token. -/
def invalidMfa : AuthResponse :=
  { success := false, error := some "Invalid MFA token",
    requires_mfa := false, user := none, tokens := none }

/-- Store update on the users table filtered by id: apply the patch to every
row whose id matches. -/
def updateById (users : List UserRec) (id : String) (f : UserRec → UserRec) :
    List UserRec :=
  users.map fun u => if u.id == id then f u else u

/-- The tail of `authenticate_user` shared by the MFA and non-MFA paths:
reset `failed_login_attempts` to 0, set `last_login`, issue tokens, and
return the success response. -/
def login_success (users : List UserRec) (user : UserRec) (now : Nat) :
    AuthResponse × List UserRec :=
  let users' := updateById users user.id fun u =>
    { u with failed_login_attempts := 0, last_login := some now }
  let tokens := generate_tokens user.id user.email user.roles now
  ({ success := true, error := none, requires_mfa := false,
     user := some { id := user.id, email := user.email,
                    full_name := user.full_name, roles := user.roles },
     tokens := some tokens }, users')

/-- Source method `AuthenticationManager.authenticate_user` on email,
password and optional mfa token, over a `users` table, at time `now`.  Returns the response together with the
resulting `users` table (every store write in the source happens before the
corresponding response is returned). -/
def authenticate_user (users : List UserRec) (email password : String)
    (mfa_token : Option String) (now : Nat) : AuthResponse × List UserRec :=
  match users.find? (fun u => u.email == email) with
  | none => (invalidCredentials, users)
  | some user =>
    if user.account_locked then (accountLocked, users)
    else if ¬ verify_password password user.password_hash then
      let failed_attempts := user.failed_login_attempts + 1
      let users' := updateById users user.id fun u =>
        { u with failed_login_attempts := failed_attempts,
                 account_locked :=
                   if failed_attempts ≥ 5 then true else u.account_locked }
      (invalidCredentials, users')
    else if user.mfa_enabled then
      match mfa_token with
      | none => (mfaRequired, users)
      | some tok =>
        if ¬ verify_totp (decrypt user.mfa_secret) tok then
          (invalidMfa, users)
        else login_success users user now
    else login_success users user now

/-! ## DataProtectionManager (`src/security/data_protection.py`) -/

/-- Source enum `DataClassification`. -/
inductive DataClassification where
  | PUBLIC
  | INTERNAL
  | CONFIDENTIAL
  | RESTRICTED
deriving DecidableEq

/-- String value of each classification level, as in the source enum. -/
def DataClassification.value : DataClassification → String
  | .PUBLIC => "public"
  | .INTERNAL => "internal"
  | .CONFIDENTIAL => "confidential"
  | .RESTRICTED => "restricted"

/-- Source dataclass `DataRetentionPolicy`. -/
structure DataRetentionPolicy where
  data_type : String
  retention_period_days : Nat
  classification : DataClassification
  auto_delete : Bool := true
  archive_before_delete : Bool := true
deriving DecidableEq

/-- The `retention_policies` dict built in `DataProtectionManager.__init__`,
as an association list in insertion order. -/
def retention_policies : List (String × DataRetentionPolicy) :=
  [("journal_entries",
    { data_type := "journal_entries", retention_period_days := 2555,
      classification := .CONFIDENTIAL }),
   ("health_metrics",
    { data_type := "health_metrics", retention_period_days := 2555,
      classification := .CONFIDENTIAL }),
   ("business_activities",
    { data_type := "business_activities", retention_period_days := 2555,
      classification := .CONFIDENTIAL }),
   ("productivity_sessions",
    { data_type := "productivity_sessions", retention_period_days := 1095,
      classification := .INTERNAL }),
   ("ai_interactions",
    { data_type := "ai_interactions", retention_period_days := 365,
      classification := .INTERNAL }),
   ("audit_logs",
    { data_type := "audit_logs", retention_period_days := 2555,
      classification := .RESTRICTED, auto_delete := false }),
   ("user_sessions",
    { data_type := "user_sessions", retention_period_days := 90,
      classification := .INTERNAL })]

/-- Source method `get_data_classification`: the classification of the
matching policy, defaulting to `INTERNAL` for a data type with no retention
policy. -/
def get_data_classification (data_type : String) : DataClassification :=
  match retention_policies.lookup data_type with
  | some policy => policy.classification
  | none => .INTERNAL

/-- A generic row of a user-data table (the fields the retention sweep
selects: `id, user_id, created_at`; `created_at` in days). -/
structure Row where
  id : String
  user_id : String
  created_at : Nat
deriving DecidableEq

/-- The dict inserted into `audit_logs` by `log_data_access`. -/
structure AuditRecord where
  user_id : String
  data_type : String
  action : String
  ip_address : String
  user_agent : String
  details : Option String
  timestamp : Nat
  classification : String
deriving DecidableEq

/-- The dict inserted into `archived_records` by `_archive_record`. -/
structure ArchiveRecord where
  original_table : String
  original_id : String
  user_id : String
  archived_at : Nat
  encrypted_data : String
deriving DecidableEq

/-- Serialization of a row (json.dumps in the source), modelled as an
injective encoding. -/
def encodeRow (r : Row) : String :=
  r.id ++ "|" ++ r.user_id ++ "|" ++ toString r.created_at

/-- The result dict of `export_user_data`. -/
structure ExportBundle where
  user_id : String
  export_timestamp : Nat
  data : List (String × List Row)
deriving DecidableEq

/-- Serialization of an export bundle, modelled as an injective encoding. -/
def encodeBundle (b : ExportBundle) : String :=
  b.user_id ++ "@" ++ toString b.export_timestamp ++ "@" ++
    String.join (b.data.map fun p =>
      p.1 ++ ":" ++ String.join (p.2.map encodeRow) ++ ";")

/-- Hex digest of sha256 from the source, modelled as a tag. -/
def sha256hex (s : String) : String := "sha$" ++ s

/-- The dict inserted into `archived_user_data` by `_archive_user_data`. -/
structure UserArchiveRecord where
  user_id : String
  archived_at : Nat
  data_hash : String
  encrypted_data : String
deriving DecidableEq

/-- The slice of the Supabase store the data-protection manager touches: the
user-data tables by name, plus the append-only `audit_logs`,
`archived_records` and `archived_user_data` tables. -/
structure Store where
  tables : String → List Row
  audit_logs : List AuditRecord
  archived_records : List ArchiveRecord
  archived_user_data : List UserArchiveRecord

/-- Source method `log_data_access`: append one audit record whose
classification is the value of `get_data_classification` at `data_type`. -/
def log_data_access (σ : Store) (user_id data_type action ip_address
    user_agent : String) (details : Option String) (now : Nat) : Store :=
  { σ with audit_logs := σ.audit_logs ++
      [{ user_id := user_id, data_type := data_type, action := action,
         ip_address := ip_address, user_agent := user_agent,
         details := details, timestamp := now,
         classification := (get_data_classification data_type).value }] }

/-- The fixed `tables_to_export` list in `export_user_data`. -/
def tables_to_export : List String :=
  ["user_profiles", "journal_entries", "health_metrics",
   "business_activities", "productivity_sessions", "goals",
   "ai_interactions", "user_consents"]

/-- The fixed `tables_to_delete` list in `delete_user_data`. -/
def tables_to_delete : List String :=
  ["ai_interactions", "productivity_sessions", "business_activities",
   "health_metrics", "journal_entries", "goals", "user_consents",
   "user_profiles"]

/-- Source method `export_user_data(user_id)` at time `now`.  Argument
`selFails t` models the per-table select raising; the source catches it and
stores `[]` for that table.  The export itself is audited via
`log_data_access`. -/
def export_user_data (σ : Store) (user_id : String) (now : Nat)
    (selFails : String → Bool) : ExportBundle × Store :=
  let data := tables_to_export.map fun t =>
    (t, if selFails t then []
        else (σ.tables t).filter fun r => r.user_id == user_id)
  let σ1 := log_data_access σ user_id "all_data" "export" "system"
    "data_export_system" (some "Full data export for GDPR compliance") now
  ({ user_id := user_id, export_timestamp := now, data := data }, σ1)

/-- Source method `_archive_user_data`: insert one encrypted snapshot row. -/
def archive_user_data (σ : Store) (user_id : String) (data : ExportBundle)
    (now : Nat) : Store :=
  { σ with archived_user_data := σ.archived_user_data ++
      [{ user_id := user_id, archived_at := now,
         data_hash := sha256hex (encodeBundle data),
         encrypted_data := encrypt (encodeBundle data) }] }

/-- Store delete on table `t` filtered by user id: drop the rows of that
user from `t`. -/
def delete_rows_by_user (σ : Store) (t user_id : String) : Store :=
  { σ with tables := fun t' =>
      if t' == t then (σ.tables t).filter (fun r => ¬ r.user_id == user_id)
      else σ.tables t' }

/-- Source method `delete_user_data(user_id, archive_first)` at time `now`.
Argument `delFails t` models the per-table delete raising; the source catches
it (only logging) and continues with the next table, so the function still
returns true. -/
def delete_user_data (σ : Store) (user_id : String) (archive_first : Bool)
    (selFails delFails : String → Bool) (now : Nat) : Bool × Store :=
  let σ1 := if archive_first then
      let archived := export_user_data σ user_id now selFails
      archive_user_data archived.2 user_id archived.1 now
    else σ
  let σ2 := tables_to_delete.foldl (fun s t =>
      if delFails t then s else delete_rows_by_user s t user_id) σ1
  let σ3 := log_data_access σ2 user_id "all_data" "delete" "system"
    "data_deletion_system" (some "Full data deletion for GDPR compliance") now
  (true, σ3)

/-- Source method `_archive_record`: append one archive row for `record` of
`table_name`. -/
def archive_record (σ : Store) (table_name : String) (record : Row)
    (now : Nat) : Store :=
  { σ with archived_records := σ.archived_records ++
      [{ original_table := table_name, original_id := record.id,
         user_id := record.user_id, archived_at := now,
         encrypted_data := encrypt (encodeRow record) }] }

/-- Store delete on table `t` filtered by id: drop the rows with that id
from `t`. -/
def delete_row_by_id (σ : Store) (t id : String) : Store :=
  { σ with tables := fun t' =>
      if t' == t then (σ.tables t).filter (fun r => ¬ r.id == id)
      else σ.tables t' }

/-- The records of `data_type` older than the cutoff of the policy
(`created_at < now - retention_period_days`, times in days;
`Nat` subtraction clamps at 0 exactly when the cutoff predates the epoch). -/
def expired_rows (σ : Store) (data_type : String)
    (policy : DataRetentionPolicy) (now : Nat) : List Row :=
  (σ.tables data_type).filter fun r =>
    r.created_at < now - policy.retention_period_days

/-- The per-record loop of `apply_retention_policies`: archive (when the
policy says so) then delete each expired record.  `delFails t id` models the
delete raising; the enclosing `try` is per category, so a raise abandons the
remaining records of this category (the archive already written stays). -/
def process_expired (data_type : String) (policy : DataRetentionPolicy)
    (now : Nat) (delFails : String → String → Bool) :
    Store → List Row → Store
  | σ, [] => σ
  | σ, r :: rs =>
    let σ1 := if policy.archive_before_delete then
        archive_record σ data_type r now
      else σ
    if delFails data_type r.id then σ1
    else process_expired data_type policy now delFails
      (delete_row_by_id σ1 data_type r.id) rs

/-- One iteration of the policy loop in `apply_retention_policies`:
skip when `auto_delete` is false, else select the expired records and
process them. -/
def sweep_category (now : Nat) (delFails : String → String → Bool)
    (σ : Store) (entry : String × DataRetentionPolicy) : Store :=
  if ¬ entry.2.auto_delete then σ
  else process_expired entry.1 entry.2 now delFails σ
    (expired_rows σ entry.1 entry.2 now)

/-- Source method `apply_retention_policies` at time `now` (the scheduled
sweep). -/
def apply_retention_policies (σ : Store) (now : Nat)
    (delFails : String → String → Bool) : Store :=
  retention_policies.foldl (sweep_category now delFails) σ

/-- A row of the `user_consents` table, with the fields `get_user_consents`
selects (`consent_type, granted`) plus the `user_id` filter and `timestamp`
order keys. -/
structure ConsentRow where
  user_id : String
  consent_type : String
  granted : Bool
  timestamp : Nat
deriving DecidableEq

/-- Ordering used by the store query order(timestamp, desc=True): newest
first. -/
def consent_order (a b : ConsentRow) : Prop := b.timestamp ≤ a.timestamp

instance : DecidableRel consent_order := fun a b =>
  inferInstanceAs (Decidable (b.timestamp ≤ a.timestamp))

instance : IsTotal ConsentRow consent_order :=
  ⟨fun a b => le_total b.timestamp a.timestamp⟩

instance : IsTrans ConsentRow consent_order :=
  ⟨fun _ _ _ h1 h2 => le_trans h2 h1⟩

/-- Source method `get_user_consents(user_id)` over the `user_consents`
table: select the records of that user newest-first, then keep the first
record seen for each consent type (the source loop inserts only consent
types not yet present); the resulting dict is an association list. -/
def get_user_consents (user_consents : List ConsentRow) (user_id : String) :
    List (String × Bool) :=
  let rows := List.insertionSort consent_order
    (user_consents.filter fun r => r.user_id == user_id)
  rows.foldl (fun consents r =>
    if (consents.lookup r.consent_type).isSome then consents
    else consents ++ [(r.consent_type, r.granted)]) []

/-! ## Helper lemmas about `authenticate_user` -/

/-- Unknown email: the generic invalid-credentials response, store unchanged. -/
lemma auth_not_found (users : List UserRec) (email password : String)
    (mfa_token : Option String) (now : Nat)
    (h : users.find? (fun u => u.email == email) = none) :
    authenticate_user users email password mfa_token now
      = (invalidCredentials, users) := by
  simp [authenticate_user, h]

/-- Locked account: unconditional rejection, store unchanged. -/
lemma auth_locked (users : List UserRec) (email password : String)
    (mfa_token : Option String) (now : Nat) (user : UserRec)
    (hfind : users.find? (fun u => u.email == email) = some user)
    (hl : user.account_locked = true) :
    authenticate_user users email password mfa_token now
      = (accountLocked, users) := by
  simp [authenticate_user, hfind, hl]

/-- Wrong password on an unlocked account: generic failure response, and a
single store update that increments the counter and sets the lock flag
exactly when the incremented counter reaches 5. -/
lemma auth_wrong_password (users : List UserRec) (email password : String)
    (mfa_token : Option String) (now : Nat) (user : UserRec)
    (hfind : users.find? (fun u => u.email == email) = some user)
    (hl : user.account_locked = false)
    (hv : verify_password password user.password_hash = false) :
    authenticate_user users email password mfa_token now
      = (invalidCredentials,
         updateById users user.id fun u =>
           { u with failed_login_attempts := user.failed_login_attempts + 1,
                    account_locked :=
                      if user.failed_login_attempts + 1 ≥ 5 then true
                      else u.account_locked }) := by
  simp [authenticate_user, hfind, hl, hv]

/-- Password correct, MFA enabled, no code supplied: the requires-mfa
response, store unchanged. -/
lemma auth_mfa_missing (users : List UserRec) (email password : String)
    (now : Nat) (user : UserRec)
    (hfind : users.find? (fun u => u.email == email) = some user)
    (hl : user.account_locked = false)
    (hv : verify_password password user.password_hash = true)
    (hm : user.mfa_enabled = true) :
    authenticate_user users email password none now = (mfaRequired, users) := by
  simp [authenticate_user, hfind, hl, hv, hm]

/-- Password correct, MFA enabled, wrong code supplied: hard failure, store
unchanged. -/
lemma auth_mfa_wrong (users : List UserRec) (email password tok : String)
    (now : Nat) (user : UserRec)
    (hfind : users.find? (fun u => u.email == email) = some user)
    (hl : user.account_locked = false)
    (hv : verify_password password user.password_hash = true)
    (hm : user.mfa_enabled = true)
    (ht : verify_totp (decrypt user.mfa_secret) tok = false) :
    authenticate_user users email password (some tok) now
      = (invalidMfa, users) := by
  simp [authenticate_user, hfind, hl, hv, hm, ht]

/-- The store after `n` consecutive login attempts with the password `pw`
against a single-user store (the end-to-end lockout scenario of the spec). -/
def failed_attempt_chain (u : UserRec) (email pw : String) (now : Nat) :
    Nat → List UserRec
  | 0 => [u]
  | n + 1 =>
    (authenticate_user (failed_attempt_chain u email pw now n) email pw
      none now).2

/-- Closed form of the first five wrong-password attempts: the counter is the
number of attempts and the lock flag turns on exactly at 5. -/
lemma failed_attempt_chain_closed (u : UserRec) (email wrongpw : String)
    (now : Nat)
    (he : u.email = email) (hl : u.account_locked = false)
    (h0 : u.failed_login_attempts = 0)
    (hw : verify_password wrongpw u.password_hash = false) :
    ∀ n, n ≤ 5 → failed_attempt_chain u email wrongpw now n
      = [{ u with failed_login_attempts := n,
                  account_locked := if 5 ≤ n then true else false }] := by
  intro n
  induction n with
  | zero =>
    intro _
    simp [failed_attempt_chain]
    rw [← h0, ← hl]
  | succ n ih =>
    intro hn
    have hn5 : n ≤ 5 := Nat.le_of_succ_le hn
    have hn4 : ¬ (5 ≤ n) := by omega
    rw [failed_attempt_chain, ih hn5]
    rw [auth_wrong_password _ email wrongpw none now
      { u with failed_login_attempts := n,
               account_locked := if 5 ≤ n then true else false }
      (by simp [List.find?, he]) (by simp [hn4]) (by simpa using hw)]
    simp [updateById, hn4]

/-! ## Claim C1 (corrected) -/

/-- C1 counterexample: for a user with role list `[\x22user\x22]`, refreshing the
just-issued refresh token yields an access token whose roles claim is the
empty list, not the role list captured at issuance — the refresh payload
carries no roles claim, so the claimed propagation of `R` fails. -/
theorem C1_counterexample :
    refresh_access_token
        (generate_tokens "u1" "a@b.c" ["user"] 0).refresh_token 0
      = some (Token.signed
          { user_id := "u1", email := "a@b.c", roles := some [],
            typ := "access", iat := 0, exp := 0 + JWT_ACCESS_TOKEN_EXPIRES })
    ∧ (some [] : Option (List String)) ≠ some ["user"] :=
  ⟨by decide, by decide⟩

/-- C1 (amended): `refresh_access_token` on a badly signed, expired, or
type-mismatched token returns `none`; on a valid refresh token issued by
`generate_tokens` it returns a new access token whose roles claim is the
empty list (not the original role list), because the refresh payload carries
no roles claim and the source falls back to the empty default. -/
theorem C1_refresh_roles :
    (∀ now : Nat, refresh_access_token Token.invalidTok now = none)
    ∧ (∀ (c : JwtClaims) (now : Nat), c.exp < now →
        refresh_access_token (Token.signed c) now = none)
    ∧ (∀ (c : JwtClaims) (now : Nat), ¬ c.typ = "refresh" →
        refresh_access_token (Token.signed c) now = none)
    ∧ (∀ (user_id email : String) (roles : List String) (now nowR : Nat),
        nowR ≤ now + JWT_REFRESH_TOKEN_EXPIRES →
        refresh_access_token
            (generate_tokens user_id email roles now).refresh_token nowR
          = some (Token.signed
              { user_id := user_id, email := email, roles := some [],
                typ := "access", iat := nowR,
                exp := nowR + JWT_ACCESS_TOKEN_EXPIRES })) := by
  refine ⟨fun now => rfl, ?_, ?_, ?_⟩
  · intro c now h
    simp [refresh_access_token, verify_token, h]
  · intro c now h
    simp only [refresh_access_token, verify_token]
    by_cases hexp : c.exp < now
    · simp [hexp]
    · simp [hexp, h]
  · intro user_id email roles now nowR hle
    have hexp : ¬ (now + JWT_REFRESH_TOKEN_EXPIRES < nowR) := by omega
    simp [generate_tokens, refresh_access_token, verify_token, hexp]

/-- C1 witness: the amended theorem applied at concrete tokens — an access
token is rejected, an expired refresh token is rejected, and a live refresh
token for roles `[\x22admin\x22]` yields an access token with empty roles. -/
theorem C1_witness :
    refresh_access_token
        (Token.signed
          { user_id := "u", email := "e@x.y", roles := some ["admin"],
            typ := "access", iat := 0, exp := 100 }) 0 = none
    ∧ refresh_access_token
        (Token.signed
          { user_id := "u", email := "e@x.y", roles := none,
            typ := "refresh", iat := 0, exp := 100 }) 200 = none
    ∧ refresh_access_token
        (generate_tokens "u" "e@x.y" ["admin"] 0).refresh_token 50
      = some (Token.signed
          { user_id := "u", email := "e@x.y", roles := some [],
            typ := "access", iat := 50,
            exp := 50 + JWT_ACCESS_TOKEN_EXPIRES }) :=
  ⟨C1_refresh_roles.2.2.1 _ 0 (by decide),
   C1_refresh_roles.2.1 _ 200 (by decide),
   C1_refresh_roles.2.2.2 "u" "e@x.y" ["admin"] 0 50 (by decide)⟩

/-! ## Claim C2 (confirmed) -/

/-- C2: a user record with `account_locked = true` is rejected
unconditionally — even with a correct password — with no store write at all
(so no token issue and no further counter increment); in particular after 5
consecutive failed logins a 6th attempt with the correct password still
fails with the lock response and leaves the store unchanged. -/
theorem C2_locked_account_fails_closed :
    (∀ (users : List UserRec) (email password : String)
       (mfa_token : Option String) (now : Nat) (user : UserRec),
       users.find? (fun u => u.email == email) = some user →
       user.account_locked = true →
       authenticate_user users email password mfa_token now
         = (accountLocked, users))
    ∧ (∀ (u : UserRec) (email wrongpw correctpw : String)
         (mfa_token : Option String) (now : Nat),
         u.email = email → u.account_locked = false →
         u.failed_login_attempts = 0 →
         verify_password wrongpw u.password_hash = false →
         verify_password correctpw u.password_hash = true →
         (failed_attempt_chain u email wrongpw now 5).all
             (fun v => v.account_locked) = true
         ∧ authenticate_user (failed_attempt_chain u email wrongpw now 5)
             email correctpw mfa_token now
           = (accountLocked, failed_attempt_chain u email wrongpw now 5)) := by
  constructor
  · intro users email password mfa_token now user hfind hl
    exact auth_locked users email password mfa_token now user hfind hl
  · intro u email wrongpw correctpw mfa_token now he hl h0 hw _hc
    have h5 := failed_attempt_chain_closed u email wrongpw now he hl h0 hw 5
      (le_refl 5)
    refine ⟨by rw [h5]; simp, ?_⟩
    rw [h5]
    exact auth_locked _ email correctpw mfa_token now
      { u with
          failed_login_attempts := 5,
          account_locked := if 5 ≤ 5 then true else false }
      (List.find?_cons_of_pos _ (by simp [he])) (by simp)

/-- Single-user store for the C2 and C6 witnesses. -/
def c2User : UserRec :=
  { id := "id1", email := "w@x.y",
    password_hash := hash_password "CorrectHorse1!",
    full_name := "W", mfa_secret := encrypt "s", mfa_enabled := false,
    roles := ["user"], failed_login_attempts := 0, account_locked := false,
    last_login := none }

/-- The same user once locked after five failures. -/
def c2Locked : UserRec :=
  { c2User with failed_login_attempts := 5, account_locked := true }

/-- C2 witness: the theorem applied to a concrete locked user and to the
concrete 5-failures-then-correct-password scenario. -/
theorem C2_witness :
    authenticate_user [c2Locked] "w@x.y" "CorrectHorse1!" none 3
      = (accountLocked, [c2Locked])
    ∧ ((failed_attempt_chain c2User "w@x.y" "bad" 3 5).all
         (fun v => v.account_locked) = true
       ∧ authenticate_user (failed_attempt_chain c2User "w@x.y" "bad" 3 5)
           "w@x.y" "CorrectHorse1!" none 3
         = (accountLocked, failed_attempt_chain c2User "w@x.y" "bad" 3 5)) :=
  ⟨C2_locked_account_fails_closed.1 [c2Locked] "w@x.y" "CorrectHorse1!" none 3
     c2Locked (by decide) rfl,
   C2_locked_account_fails_closed.2 c2User "w@x.y" "bad" "CorrectHorse1!"
     none 3 rfl rfl rfl (by decide) (by decide)⟩

/-! ## Claim C6 (confirmed) -/

/-- C6: a wrong password on an unlocked account yields the generic failure
and one single store update that writes the counter incremented by exactly
one and sets `account_locked` exactly when the incremented counter reaches
the threshold 5; the returned store already contains the update. -/
theorem C6_wrong_password_single_update (users : List UserRec)
    (email password : String) (mfa_token : Option String) (now : Nat)
    (user : UserRec)
    (hfind : users.find? (fun u => u.email == email) = some user)
    (hl : user.account_locked = false)
    (hv : verify_password password user.password_hash = false) :
    authenticate_user users email password mfa_token now
      = (invalidCredentials,
         updateById users user.id fun u =>
           { u with failed_login_attempts := user.failed_login_attempts + 1,
                    account_locked :=
                      if user.failed_login_attempts + 1 ≥ 5 then true
                      else u.account_locked }) :=
  auth_wrong_password users email password mfa_token now user hfind hl hv

/-- A user one failure below the lock threshold, for the C6 witness. -/
def c6User : UserRec :=
  { c2User with id := "id6", email := "c6@x.y", failed_login_attempts := 4 }

/-- C6 witness: the theorem applied at a concrete user with 4 prior failures;
the single update writes counter 5 and the lock flag together. -/
theorem C6_witness :
    authenticate_user [c6User] "c6@x.y" "nope" none 0
      = (invalidCredentials,
         [{ c6User with failed_login_attempts := 5, account_locked := true }]) :=
  (C6_wrong_password_single_update [c6User] "c6@x.y" "nope" none 0 c6User
    (by decide) rfl (by decide)).trans (by decide)

/-! ## Claim C7 (confirmed) -/

/-- C7: with a verified password and MFA enabled, a missing code yields the
distinct requires-mfa outcome and a wrong code yields the hard MFA failure;
in both cases the returned store is exactly the input store — no counter
increment and no other field change — so MFA failures never feed the
password lockout counter. -/
theorem C7_mfa_failures_frame (users : List UserRec)
    (email password : String) (now : Nat) (user : UserRec)
    (hfind : users.find? (fun u => u.email == email) = some user)
    (hl : user.account_locked = false)
    (hv : verify_password password user.password_hash = true)
    (hm : user.mfa_enabled = true) :
    authenticate_user users email password none now = (mfaRequired, users)
    ∧ (∀ tok : String, verify_totp (decrypt user.mfa_secret) tok = false →
        authenticate_user users email password (some tok) now
          = (invalidMfa, users))
    ∧ mfaRequired.requires_mfa = true
    ∧ mfaRequired ≠ invalidCredentials :=
  ⟨auth_mfa_missing users email password now user hfind hl hv hm,
   fun tok ht =>
     auth_mfa_wrong users email password tok now user hfind hl hv hm ht,
   rfl, by decide⟩

/-- An MFA-enabled user for the C7 witness. -/
def c7User : UserRec :=
  { c2User with
      id := "id7", email := "c7@x.y", mfa_enabled := true,
      mfa_secret := encrypt "s7" }

/-- C7 witness: the theorem applied at a concrete MFA-enabled user — missing
code gives requires-mfa, the wrong code 000000 gives the MFA failure, and in
both cases the store is returned unchanged. -/
theorem C7_witness :
    authenticate_user [c7User] "c7@x.y" "CorrectHorse1!" none 0
      = (mfaRequired, [c7User])
    ∧ authenticate_user [c7User] "c7@x.y" "CorrectHorse1!" (some "000000") 0
      = (invalidMfa, [c7User]) :=
  ⟨(C7_mfa_failures_frame [c7User] "c7@x.y" "CorrectHorse1!" 0 c7User
      (by decide) rfl (by decide) rfl).1,
   (C7_mfa_failures_frame [c7User] "c7@x.y" "CorrectHorse1!" 0 c7User
      (by decide) rfl (by decide) rfl).2.1 "000000" (by decide)⟩

/-! ## Claim C8 (confirmed) -/

/-- C8: a login with an email matching no user and a login with an existing
email but wrong password (unlocked, below the lock threshold) produce
identical public responses — the same generic invalid-credentials outcome —
so the public result reveals nothing about user existence. -/
theorem C8_no_user_existence_oracle (users1 users2 : List UserRec)
    (e1 e2 p1 p2 : String) (t1 t2 : Option String) (now1 now2 : Nat)
    (user2 : UserRec)
    (h1 : users1.find? (fun u => u.email == e1) = none)
    (h2 : users2.find? (fun u => u.email == e2) = some user2)
    (hl : user2.account_locked = false)
    (_hthr : user2.failed_login_attempts + 1 < 5)
    (hv : verify_password p2 user2.password_hash = false) :
    (authenticate_user users1 e1 p1 t1 now1).1
      = (authenticate_user users2 e2 p2 t2 now2).1
    ∧ (authenticate_user users1 e1 p1 t1 now1).1 = invalidCredentials := by
  rw [auth_not_found users1 e1 p1 t1 now1 h1,
    auth_wrong_password users2 e2 p2 t2 now2 user2 h2 hl hv]
  exact ⟨rfl, rfl⟩

/-- C8 witness: the theorem applied to the empty store versus a concrete
one-user store with a wrong password. -/
theorem C8_witness :
    (authenticate_user [] "ghost@x.y" "whatever" none 0).1
      = (authenticate_user [c2User] "w@x.y" "wrong" none 9).1
    ∧ (authenticate_user [] "ghost@x.y" "whatever" none 0).1
      = invalidCredentials :=
  C8_no_user_existence_oracle [] [c2User] "ghost@x.y" "w@x.y" "whatever"
    "wrong" none none 0 9 c2User rfl (by decide) rfl (by decide) (by decide)

/-! ## Claim C3 (corrected) -/

/-- A store with no rows at all, for concrete counterexamples. -/
def emptyStore : Store :=
  { tables := (fun _ => []), audit_logs := [], archived_records := [],
    archived_user_data := [] }

/-- C3 counterexample: exporting from a store with an empty audit log writes
exactly one audit record, and its sensitivity classification is the string
internal, not confidential — the export logs under data type all_data, which
has no retention policy, so the classification defaults to internal. -/
theorem C3_counterexample :
    ((export_user_data emptyStore "u1" 0 (fun _ => false)).2.audit_logs.map
        (fun a => a.classification)) = ["internal"]
    ∧ ("internal" : String) ≠ "confidential" :=
  ⟨by decide, by decide⟩

/-- C3 (amended): every export returns a bundle tagged with the export
timestamp whose data covers exactly the fixed list of governed export tables,
and appends exactly one audit record for the export — whose classification is
internal (the default for the unpoliced data type all_data), not
confidential as claimed. -/
theorem C3_export_bundle_and_audit (σ : Store) (user_id : String) (now : Nat)
    (selFails : String → Bool) :
    (export_user_data σ user_id now selFails).1.export_timestamp = now
    ∧ (export_user_data σ user_id now selFails).1.data.map Prod.fst
        = tables_to_export
    ∧ (export_user_data σ user_id now selFails).2.audit_logs
        = σ.audit_logs ++
          [{ user_id := user_id, data_type := "all_data", action := "export",
             ip_address := "system", user_agent := "data_export_system",
             details := some "Full data export for GDPR compliance",
             timestamp := now,
             classification := DataClassification.INTERNAL.value }]
    ∧ DataClassification.INTERNAL.value = "internal" :=
  ⟨rfl, by simp [export_user_data, tables_to_export], rfl, rfl⟩

/-! ## Claims C9 and C10: deletion -/

/-- Effect of the per-table deletion loop of `delete_user_data` on each
table: a table is scrubbed of the user rows exactly when it is in the list
and its delete did not fail; every other table is untouched. -/
lemma delete_fold_tables (delFails : String → Bool) (ts : List String)
    (σ : Store) (user_id t : String) :
    ((ts.foldl (fun s t' =>
        if delFails t' then s else delete_rows_by_user s t' user_id) σ).tables
      t)
      = if t ∈ ts ∧ delFails t = false
        then (σ.tables t).filter (fun r => ¬ r.user_id == user_id)
        else σ.tables t := by
  induction ts generalizing σ with
  | nil => simp
  | cons t0 ts ih =>
    simp only [List.foldl_cons]
    rw [ih]
    by_cases hf : delFails t0
    · simp only [hf, if_true]
      by_cases hteq : t = t0
      · subst hteq
        simp [hf]
      · simp [hteq]
    · simp only [hf, if_false]
      by_cases hteq : t = t0
      · subst hteq
        simp [delete_rows_by_user, hf, List.filter_filter]
      · simp only [delete_rows_by_user]
        have hne : (t == t0) = false := by simp [hteq]
        simp [hne, hteq]

/-- Logging touches only the audit table. -/
lemma log_data_access_tables (σ : Store) (a b c d e : String)
    (f : Option String) (now : Nat) :
    (log_data_access σ a b c d e f now).tables = σ.tables := rfl

/-- Archiving a user snapshot touches only the archive table. -/
lemma archive_user_data_tables (σ : Store) (uid : String) (b : ExportBundle)
    (now : Nat) : (archive_user_data σ uid b now).tables = σ.tables := rfl

/-- The data tables after `delete_user_data`: the archive/export prefix and
the final audit write leave them alone, so the outcome is exactly that of
the per-table deletion loop. -/
lemma delete_user_data_tables (σ : Store) (user_id : String)
    (archive_first : Bool) (selFails delFails : String → Bool) (now : Nat)
    (t : String) :
    ((delete_user_data σ user_id archive_first selFails delFails now).2).tables
      t
      = if t ∈ tables_to_delete ∧ delFails t = false
        then (σ.tables t).filter (fun r => ¬ r.user_id == user_id)
        else σ.tables t := by
  simp only [delete_user_data, log_data_access_tables]
  rw [delete_fold_tables]
  by_cases haf : archive_first
  · simp [haf, archive_user_data_tables, export_user_data,
      log_data_access_tables]
  · simp [haf]

/-- C10: `delete_user_data` returns success no matter which per-table deletes
fail — every failure inside the loop is caught and merely logged — and in the
extreme case where every per-table delete fails the data tables are entirely
unchanged, so a true result does not imply the user data was removed. -/
theorem C10_delete_swallows_store_errors (σ : Store) (user_id : String)
    (archive_first : Bool) (selFails delFails : String → Bool) (now : Nat) :
    (delete_user_data σ user_id archive_first selFails delFails now).1 = true
    ∧ (∀ t : String,
        ((delete_user_data σ user_id archive_first selFails (fun _ => true)
            now).2).tables t
          = σ.tables t) := by
  refine ⟨rfl, fun t => ?_⟩
  rw [delete_user_data_tables]
  simp

/-- C9: with every store operation succeeding, deleting a user and then
exporting yields an export bundle in which every governed category collection
is empty, and the set of tables deleted equals the set of tables exported. -/
theorem C9_delete_then_export_empty (σ : Store) (user_id : String)
    (archive_first : Bool) (now nowE : Nat) :
    ((export_user_data
        ((delete_user_data σ user_id archive_first (fun _ => false)
            (fun _ => false) now).2)
        user_id nowE (fun _ => false)).1.data.all
      (fun entry => entry.2.isEmpty)) = true
    ∧ tables_to_delete.all (fun t => tables_to_export.contains t) = true
    ∧ tables_to_export.all (fun t => tables_to_delete.contains t) = true := by
  refine ⟨?_, by decide, by decide⟩
  rw [List.all_eq_true]
  intro entry hentry
  simp only [export_user_data, List.mem_map] at hentry
  obtain ⟨t, ht, rfl⟩ := hentry
  simp only [if_neg (by simp : ¬ (false = true)), List.isEmpty_iff]
  rw [delete_user_data_tables]
  have htd : t ∈ tables_to_delete := by
    fin_cases ht <;> decide
  simp only [htd, and_self, if_pos, true_and]
  rw [List.filter_filter]
  rw [List.filter_eq_nil_iff]
  intro r _
  by_cases h : r.user_id == user_id <;> simp [h]

/-! ## Claim C4 (confirmed) -/

/-- Lookup distributes over append, preferring the left list. -/
lemma lookup_append (l1 l2 : List (String × Bool)) (c : String) :
    (l1 ++ l2).lookup c = ((l1.lookup c).or (l2.lookup c)) := by
  induction l1 with
  | nil => simp [List.lookup]
  | cons kv l1 ih =>
    obtain ⟨k, v⟩ := kv
    by_cases h : c == k
    · simp [List.lookup, h]
    · simp [List.lookup, h, ih]

/-- Lookup in the dict built by the consent fold: a key already present wins;
otherwise the first matching record in traversal order supplies the value. -/
lemma consents_foldl_lookup (rows : List ConsentRow) (c : String) :
    ∀ acc : List (String × Bool),
    ((rows.foldl (fun consents r =>
        if (consents.lookup r.consent_type).isSome then consents
        else consents ++ [(r.consent_type, r.granted)]) acc).lookup c)
      = (acc.lookup c).or
          ((rows.find? (fun r => r.consent_type == c)).map
            (fun r => r.granted)) := by
  induction rows with
  | nil => intro acc; simp
  | cons r rows ih =>
    intro acc
    simp only [List.foldl_cons]
    by_cases hs : (acc.lookup r.consent_type).isSome
    · rw [if_pos hs, ih]
      by_cases hc : r.consent_type = c
      · subst hc
        obtain ⟨v, hv⟩ := Option.isSome_iff_exists.mp hs
        rw [List.find?_cons_of_pos _ (by simp)]
        simp [hv]
      · rw [List.find?_cons_of_neg _ (by simp [hc])]
    · rw [if_neg hs, ih, lookup_append]
      by_cases hc : r.consent_type = c
      · subst hc
        have hnone : acc.lookup r.consent_type = none :=
          Option.not_isSome_iff_eq_none.mp hs
        rw [List.find?_cons_of_pos _ (by simp)]
        simp [hnone, List.lookup]
      · rw [List.find?_cons_of_neg _ (by simp [hc])]
        have hne : (c == r.consent_type) = false := by
          rw [beq_eq_false_iff_ne]
          exact fun h => hc h.symm
        have : List.lookup c [(r.consent_type, r.granted)] = none := by
          simp [List.lookup, hne]
        simp [this]

/-- In a list sorted newest-first, the first record of a category is the one
with the strictly greatest timestamp in that category, when it exists. -/
lemma find?_eq_max_of_sorted (c : String) :
    ∀ rows : List ConsentRow, rows.Sorted consent_order →
    ∀ rmax : ConsentRow, rmax ∈ rows → rmax.consent_type = c →
    (∀ r ∈ rows, r.consent_type = c → r ≠ rmax →
      r.timestamp < rmax.timestamp) →
    rows.find? (fun r => r.consent_type == c) = some rmax := by
  intro rows
  induction rows with
  | nil =>
    intro _ rmax h
    simp at h
  | cons a rows ih =>
    intro hsort rmax hmem htype hmax
    have hpair := List.sorted_cons.mp hsort
    by_cases ha : a.consent_type = c
    · have haeq : a = rmax := by
        by_contra hne
        have h1 : a.timestamp < rmax.timestamp :=
          hmax a (List.mem_cons_self a rows) ha hne
        have h2 : rmax ∈ rows := by
          rcases List.mem_cons.mp hmem with h | h
          · exact absurd h.symm hne
          · exact h
        have h3 : rmax.timestamp ≤ a.timestamp := hpair.1 rmax h2
        omega
      subst haeq
      exact List.find?_cons_of_pos _ (by simp [ha])
    · have hane : a ≠ rmax := fun h => ha (h ▸ htype)
      have h2 : rmax ∈ rows := by
        rcases List.mem_cons.mp hmem with h | h
        · exact absurd h.symm hane
        · exact h
      rw [List.find?_cons_of_neg _ (by simp [ha])]
      exact ih hpair.2 rmax h2 htype
        (fun r hr hc hne => hmax r (List.mem_cons_of_mem a hr) hc hne)

/-- C4: per consent category, `get_user_consents` returns the granted flag of
the record with the strictly greatest timestamp for that user and category,
independent of the insertion order of the records. -/
theorem C4_consent_latest_wins (user_consents : List ConsentRow)
    (user_id c : String) (rmax : ConsentRow)
    (hmem : rmax ∈ user_consents) (huid : rmax.user_id = user_id)
    (htype : rmax.consent_type = c)
    (hmax : ∀ r ∈ user_consents, r.user_id = user_id → r.consent_type = c →
      r ≠ rmax → r.timestamp < rmax.timestamp) :
    (get_user_consents user_consents user_id).lookup c
      = some rmax.granted := by
  have hperm := List.perm_insertionSort consent_order
    (user_consents.filter fun r => r.user_id == user_id)
  have hmem2 : rmax ∈ List.insertionSort consent_order
      (user_consents.filter fun r => r.user_id == user_id) := by
    rw [hperm.mem_iff, List.mem_filter]
    exact ⟨hmem, by simp [huid]⟩
  have hfind := find?_eq_max_of_sorted c
    (List.insertionSort consent_order
      (user_consents.filter fun r => r.user_id == user_id))
    (List.sorted_insertionSort consent_order _) rmax hmem2 htype ?hmax2
  case hmax2 =>
    intro r hr hc hne
    have hr2 := hperm.mem_iff.mp hr
    rw [List.mem_filter] at hr2
    exact hmax r hr2.1 (by simpa using hr2.2) hc hne
  unfold get_user_consents
  rw [consents_foldl_lookup, hfind]
  simp

/-- Consent log with three same-category records inserted out of timestamp
order, for the C4 witness. -/
def c4Rows : List ConsentRow :=
  [{ user_id := "u", consent_type := "analytics", granted := true,
     timestamp := 1 },
   { user_id := "u", consent_type := "analytics", granted := false,
     timestamp := 3 },
   { user_id := "u", consent_type := "analytics", granted := true,
     timestamp := 2 }]

/-- C4 witness: on the spec example with t1 < t2 < t3 the reduction returns
the most recent value false. -/
theorem C4_witness :
    (get_user_consents c4Rows "u").lookup "analytics" = some false :=
  C4_consent_latest_wins c4Rows "u" "analytics"
    { user_id := "u", consent_type := "analytics", granted := false,
      timestamp := 3 }
    (by decide) rfl rfl (by decide)

/-! ## Claim C5 (corrected) -/

/-- An expired row of the ai_interactions table (retention 365 days). -/
def c5Row : Row := { id := "r1", user_id := "u", created_at := 0 }

/-- A store holding only that expired row. -/
def c5Store : Store :=
  { tables := (fun t => if t == "ai_interactions" then [c5Row] else []),
    audit_logs := [], archived_records := [], archived_user_data := [] }

/-- Failure model in which exactly the delete of that row raises. -/
def c5DeleteFails : String → String → Bool :=
  fun t i => t == "ai_interactions" && i == "r1"

/-- C5 counterexample: a sweep that archives row r1 but fails to delete it
leaves one archive row and keeps r1 in the table; re-running the sweep then
archives r1 a second time — two archive rows for the same original id — so
archival writes are appends, not id-keyed overwrites, and a re-run after a
partial failure does double-archive. -/
theorem C5_counterexample :
    ((apply_retention_policies c5Store 1000 c5DeleteFails).archived_records.filter
        (fun a => a.original_id == "r1")).length = 1
    ∧ (apply_retention_policies c5Store 1000 c5DeleteFails).tables
        "ai_interactions" = [c5Row]
    ∧ ((apply_retention_policies
          (apply_retention_policies c5Store 1000 c5DeleteFails) 1000
          (fun _ _ => false)).archived_records.filter
        (fun a => a.original_id == "r1")).length = 2 :=
  ⟨by decide, by decide, by decide⟩

/-- Archiving a record touches only the archive table. -/
lemma archive_record_tables (σ : Store) (tn : String) (r : Row) (now : Nat) :
    (archive_record σ tn r now).tables = σ.tables := rfl

/-- Deleting by id can only remove rows: membership is preserved backwards. -/
lemma delete_row_by_id_subset (σ : Store) (t0 i t : String) (x : Row)
    (h : x ∈ (delete_row_by_id σ t0 i).tables t) : x ∈ σ.tables t := by
  simp only [delete_row_by_id] at h
  split at h
  · next ht =>
      have hteq : t = t0 := by simpa using ht
      subst hteq
      exact (List.mem_filter.mp h).1
  · exact h

/-- The per-record retention loop can only remove table rows. -/
lemma process_expired_subset (data_type : String)
    (policy : DataRetentionPolicy) (now : Nat)
    (delFails : String → String → Bool) :
    ∀ (rows : List Row) (σ : Store) (t : String) (x : Row),
    x ∈ (process_expired data_type policy now delFails σ rows).tables t →
    x ∈ σ.tables t := by
  intro rows
  induction rows with
  | nil => intro σ t x h; exact h
  | cons r rows ih =>
    intro σ t x h
    have hσ1 : (if policy.archive_before_delete then
        archive_record σ data_type r now else σ).tables = σ.tables := by
      by_cases ha : policy.archive_before_delete <;>
        simp [ha, archive_record_tables]
    simp only [process_expired] at h
    split at h
    · rw [hσ1] at h
      exact h
    · have h2 := ih _ _ _ h
      have h3 := delete_row_by_id_subset _ _ _ _ _ h2
      rw [hσ1] at h3
      exact h3

/-- One category sweep can only remove table rows. -/
lemma sweep_category_subset (now : Nat) (delFails : String → String → Bool)
    (e : String × DataRetentionPolicy) (σ : Store) (t : String) (x : Row)
    (h : x ∈ (sweep_category now delFails σ e).tables t) : x ∈ σ.tables t := by
  simp only [sweep_category] at h
  split at h
  · exact h
  · exact process_expired_subset _ _ _ _ _ _ _ _ h

/-- With no delete failures, the loop removes every processed id from its
own table: a surviving row was there before and matches none of the ids. -/
lemma process_expired_clears (data_type : String)
    (policy : DataRetentionPolicy) (now : Nat) :
    ∀ (rows : List Row) (σ : Store) (x : Row),
    x ∈ (process_expired data_type policy now (fun _ _ => false) σ
        rows).tables data_type →
    x ∈ σ.tables data_type ∧ ∀ r ∈ rows, ¬ r.id = x.id := by
  intro rows
  induction rows with
  | nil =>
    intro σ x h
    exact ⟨h, by simp⟩
  | cons r rows ih =>
    intro σ x h
    have hσ1 : (if policy.archive_before_delete then
        archive_record σ data_type r now else σ).tables = σ.tables := by
      by_cases ha : policy.archive_before_delete <;>
        simp [ha, archive_record_tables]
    simp only [process_expired, if_neg (by simp : ¬ (false = true))] at h
    obtain ⟨h1, h2⟩ := ih _ _ h
    simp only [delete_row_by_id, hσ1, beq_self_eq_true, if_pos] at h1
    have h3 := List.mem_filter.mp h1
    refine ⟨h3.1, ?_⟩
    intro r' hr'
    rcases List.mem_cons.mp hr' with hh | hh
    · subst hh
      intro hid
      have := h3.2
      simp [hid] at this
    · exact h2 r' hh

/-- After sweeping a category with auto-delete on and no failures, that
category has no expired rows left. -/
lemma sweep_category_clears (now : Nat) (dt : String)
    (p : DataRetentionPolicy) (hauto : p.auto_delete = true) (σ : Store) :
    expired_rows (sweep_category now (fun _ _ => false) σ (dt, p)) dt p now
      = [] := by
  rw [List.eq_nil_iff_forall_not_mem]
  intro x hx
  rw [expired_rows, List.mem_filter] at hx
  obtain ⟨hx1, hx2⟩ := hx
  simp only [sweep_category, hauto, Bool.not_true,
    if_neg (by simp : ¬ (false = true))] at hx1
  obtain ⟨hmem, hids⟩ := process_expired_clears dt p now _ σ x hx1
  have hexp : x ∈ expired_rows σ dt p now := by
    rw [expired_rows, List.mem_filter]
    exact ⟨hmem, hx2⟩
  exact hids x hexp rfl

/-- A category with no expired rows stays expired-free under any further
category sweep (which can only remove rows). -/
lemma sweep_category_preserves_clear (now : Nat)
    (delFails : String → String → Bool) (dt : String)
    (p : DataRetentionPolicy) (σ : Store) (e : String × DataRetentionPolicy)
    (h : expired_rows σ dt p now = []) :
    expired_rows (sweep_category now delFails σ e) dt p now = [] := by
  rw [List.eq_nil_iff_forall_not_mem]
  intro x hx
  rw [expired_rows, List.mem_filter] at hx
  have hx1 := sweep_category_subset now delFails e σ dt x hx.1
  have : x ∈ expired_rows σ dt p now := by
    rw [expired_rows, List.mem_filter]
    exact ⟨hx1, hx.2⟩
  simp [h] at this

/-- Expired-freeness of a category is preserved by a whole sweep pass. -/
lemma sweepList_preserves_clear (now : Nat)
    (delFails : String → String → Bool) (dt : String)
    (p : DataRetentionPolicy) :
    ∀ (ps : List (String × DataRetentionPolicy)) (σ : Store),
    expired_rows σ dt p now = [] →
    expired_rows (ps.foldl (sweep_category now delFails) σ) dt p now = [] := by
  intro ps
  induction ps with
  | nil => intro σ h; exact h
  | cons e ps ih =>
    intro σ h
    simp only [List.foldl_cons]
    exact ih _ (sweep_category_preserves_clear now delFails dt p σ e h)

/-- After one failure-free sweep pass, every auto-delete category in the
pass has no expired rows left. -/
lemma sweepList_clears (now : Nat) :
    ∀ (ps : List (String × DataRetentionPolicy)) (σ : Store)
      (dt : String) (p : DataRetentionPolicy),
    (dt, p) ∈ ps → p.auto_delete = true →
    expired_rows (ps.foldl (sweep_category now (fun _ _ => false)) σ) dt p now
      = [] := by
  intro ps
  induction ps with
  | nil =>
    intro σ dt p h
    simp at h
  | cons e ps ih =>
    intro σ dt p hmem hauto
    simp only [List.foldl_cons]
    rcases List.mem_cons.mp hmem with h | h
    · subst h
      exact sweepList_preserves_clear now _ dt p ps _
        (sweep_category_clears now dt p hauto σ)
    · exact ih _ dt p h hauto

/-- A sweep pass over categories that are all skipped or expired-free is the
identity on the store. -/
lemma sweepList_id (now : Nat) (delFails : String → String → Bool) :
    ∀ (ps : List (String × DataRetentionPolicy)) (σ : Store),
    (∀ e ∈ ps, e.2.auto_delete = true → expired_rows σ e.1 e.2 now = []) →
    ps.foldl (sweep_category now delFails) σ = σ := by
  intro ps
  induction ps with
  | nil => intro σ _; rfl
  | cons e ps ih =>
    intro σ h
    simp only [List.foldl_cons]
    have he : sweep_category now delFails σ e = σ := by
      by_cases ha : e.2.auto_delete
      · have hclear := h e (List.mem_cons_self e ps) ha
        simp [sweep_category, ha, hclear, process_expired]
      · simp [sweep_category, ha]
    rw [he]
    exact ih σ fun e' he' hauto => h e' (List.mem_cons_of_mem e he') hauto

/-- C5 (amended): with every store operation succeeding, running the
retention sweep twice in succession produces the same end state as running
it once — the first pass removes every expired record, so the second pass
finds nothing to archive or delete.  (Re-runs after a partial failure do
double-archive, per the counterexample: archive rows are appended, not keyed
by original id.) -/
theorem C5_sweep_idempotent (σ : Store) (now : Nat) :
    apply_retention_policies
        (apply_retention_policies σ now (fun _ _ => false)) now
        (fun _ _ => false)
      = apply_retention_policies σ now (fun _ _ => false) := by
  unfold apply_retention_policies
  apply sweepList_id
  intro e he hauto
  exact sweepList_clears now retention_policies σ e.1 e.2 he hauto

end Dudley
